import Mathlib

/-!
Shallow embedding of the pints statistical post-processing core:

* `pints/_transformation.py` — `LogTransform` and `LogitTransform`
  (elementwise maps between model space and search space).
* `pints/toy/_neals_funnel.py` — `NealsFunnelLogPDF.evaluateS1` gradient.
* `pints/toy/_multimodal_gaussian.py` — `MultimodalGaussianLogPDF`:
  constructor validation, log-density evaluation, `kl_divergence`
  mode assignment and zero-sample fallback, `sample` count validation.
* `pints/_mcmc/_results.py` — `MCMCResults`: chain normalisation,
  eager summary computation (`make_summary`) and the stored state.

Machine floats are modelled as exact reals.  Vectors of dimension `d`
are `Fin d → ℝ`, chains are lists of such rows.  The ESS and rhat
estimators (`pints.effective_sample_size`, `pints.rhat_all_params`) and
the random-variate source are external collaborators and enter as
function parameters.  Fallible code is modelled with `Except`.
-/

open scoped BigOperators

/-- A draw of `d` real parameters: one row of an MCMC chain, one point of a
`d`-dimensional density. -/
abbrev Draw (d : ℕ) := Fin d → ℝ

namespace LogTransform

/-- From `LogTransform.to_search`: `np.log(p)` elementwise. -/
noncomputable def to_search (p : List ℝ) : List ℝ := p.map Real.log

/-- From `LogTransform.to_model`: `np.exp(x)` elementwise. -/
noncomputable def to_model (x : List ℝ) : List ℝ := x.map Real.exp

/-- From `LogTransform.log_jacobian_det`: the literal source formula
`np.sum(np.exp(x))`. -/
noncomputable def log_jacobian_det (x : List ℝ) : ℝ := (x.map Real.exp).sum

end LogTransform

/-- The scipy `expit` function used by `LogitTransform`:
`expit(x) = 1 / (1 + exp(-x))`. -/
noncomputable def expit (x : ℝ) : ℝ := 1 / (1 + Real.exp (-x))

/-- The scipy `logit` function used by `LogitTransform`:
`logit(p) = log(p / (1 - p))`. -/
noncomputable def logit (p : ℝ) : ℝ := Real.log (p / (1 - p))

namespace LogitTransform

/-- From `LogitTransform.to_search`: `logit(p)` elementwise. -/
noncomputable def to_search (p : List ℝ) : List ℝ := p.map logit

/-- From `LogitTransform.to_model`: `expit(x)` elementwise. -/
noncomputable def to_model (x : List ℝ) : List ℝ := x.map expit

end LogitTransform

namespace NealsFunnelLogPDF

/-- From `NealsFunnelLogPDF.evaluateS1`, lines 76-83: the gradient list `dL`.
`nu = x[-1]`, `x_temp = x[:-1]`, `cons = exp(-nu)`,
`dL = [-var * cons for var in x_temp]` with
`dnu = sum(0.5 * (cons * var**2 - 1) for var in x_temp) - nu / 9` appended. -/
noncomputable def evaluateS1_dL (x : List ℝ) : List ℝ :=
  let nu := x.getLastD 0
  let cons := Real.exp (-nu)
  (x.dropLast.map (fun v => -v * cons)) ++
    [(x.dropLast.map (fun v => 0.5 * (cons * v ^ 2 - 1))).sum - nu / 9]

end NealsFunnelLogPDF

/-- A mode of a multivariate normal mixture: location vector and covariance
matrix (fields `_modes[i]` and `_covs[i]` of `MultimodalGaussianLogPDF`,
combined into scipy `multivariate_normal` variables `_vars[i]`). -/
abbrev MvnMode (d : ℕ) := (Fin d → ℝ) × Matrix (Fin d) (Fin d) ℝ

/-- Default mode, used only to give `List.getD` a default value. -/
def mvnDefault (d : ℕ) : MvnMode d := (fun _ => 0, 1)

/-- Log-density of the scipy multivariate normal `_vars[i].logpdf(x)`:
`-(1/2) * (d * log(2π) + log det Σ + (x-m)ᵀ Σ⁻¹ (x-m))`. -/
noncomputable def mvnLogPdf {d : ℕ} (m : Fin d → ℝ) (S : Matrix (Fin d) (Fin d) ℝ)
    (x : Fin d → ℝ) : ℝ :=
  -(1 / 2) * ((d : ℝ) * Real.log (2 * Real.pi) + Real.log S.det +
    Matrix.dotProduct (Matrix.vecMul (fun j => x j - m j) S⁻¹) (fun j => x j - m j))

/-- Density of the scipy multivariate normal `_vars[i].pdf(x)`, the
exponential of its log-density. -/
noncomputable def mvnPdf {d : ℕ} (m : Fin d → ℝ) (S : Matrix (Fin d) (Fin d) ℝ)
    (x : Fin d → ℝ) : ℝ :=
  Real.exp (mvnLogPdf m S x)

namespace MultimodalGaussianLogPDF

/-- From `MultimodalGaussianLogPDF.__init__`, line 59:
`self._n_parameters = len(modes[0])`.  A mode is a list of reals, a
covariance matrix a list of rows; `np.array(cov).shape == (d, d)` for a
rectangular list means `d` rows, each of length `d`. -/
def n_parameters (modes : List (List ℝ)) : ℕ := (modes.headD []).length

/-- From `MultimodalGaussianLogPDF.__init__` with explicit arguments,
lines 47-78: the shape validation sequence, with `d = n_parameters modes`.
This is only the first stage of the constructor; the rest of `__init__`
(lines 80-88) can still raise and is modelled by `initChecks` below. -/
def validateArgs (modes : List (List ℝ)) (covariances : List (List (List ℝ))) :
    Except String Unit :=
  if modes.length < 1 then
    Except.error "Argument modes must be None or a non-empty list of modes."
  else if modes.any (fun m => m.length != n_parameters modes) then
    Except.error "All modes must have same dimension."
  else if covariances.length != modes.length then
    Except.error "Number of covariance matrices must equal number of modes."
  else if covariances.any (fun c => !(c.length == n_parameters modes &&
      c.all (fun row => row.length == n_parameters modes))) then
    Except.error "Covariance matrices must have shape (d, d)."
  else
    Except.ok ()

/-- Matrix view of a covariance supplied as a list of rows (row-major, as
`np.array(cov)` reads it). -/
def covMatrix (d : ℕ) (c : List (List ℝ)) : Matrix (Fin d) (Fin d) ℝ :=
  Matrix.of fun i j => (c.getD i.val []).getD j.val 0

open Classical in
/-- From `MultimodalGaussianLogPDF.__init__`, lines 47-88, with explicit
arguments: the shape validation sequence (`validateArgs`) followed by the
construction of the scipy normals and the cached covariance inverses.
`scipy.stats.multivariate_normal(mode, cov)` (line 82, with the default
`allow_singular=False`) raises ValueError for a covariance that is not
positive semidefinite and LinAlgError for a singular one, and
`np.linalg.inv(cov)` (line 87) raises LinAlgError for a singular
covariance; in exact arithmetic a covariance passes all of these exactly
when it is positive definite, so this stage is modelled by
`Matrix.PosDef` (which for real matrices includes symmetry — actual
covariance matrices are symmetric). -/
noncomputable def initChecks (modes : List (List ℝ))
    (covariances : List (List (List ℝ))) : Except String Unit :=
  match validateArgs modes covariances with
  | Except.error e => Except.error e
  | Except.ok _ =>
    if ∀ c ∈ covariances, (covMatrix (n_parameters modes) c).PosDef then
      Except.ok ()
    else
      Except.error "the input matrix must be positive semidefinite"

/-- From `MultimodalGaussianLogPDF.__call__`, line 91:
`f = np.sum([var.pdf(x) for var in self._vars])`. -/
noncomputable def sumDensity {d : ℕ} (vars : List (MvnMode d)) (x : Fin d → ℝ) : ℝ :=
  (vars.map (fun v => mvnPdf v.1 v.2 x)).sum

/-- From `MultimodalGaussianLogPDF.__call__`, line 92:
`return -float('inf') if f == 0 else np.log(f)`.  The value is an `EReal`
so that the `-inf` sentinel is representable; no raise path exists. -/
noncomputable def call {d : ℕ} (vars : List (MvnMode d)) (x : Fin d → ℝ) : EReal :=
  if sumDensity vars x = 0 then (⊥ : EReal)
  else ((Real.log (sumDensity vars x) : ℝ) : EReal)

/-- From the loop of `kl_divergence`, lines 163-169: running best
log-density (initially `-float('Inf')`, an `EReal` here) and best index
(initially `-1`), scanning the values left to right at positions
`j, j+1, ...` and updating on a strict `>` comparison. -/
noncomputable def bestModeGo (vals : List ℝ) (j : ℕ) (best : EReal) (idx : ℤ) : ℤ :=
  match vals with
  | [] => idx
  | v :: rest =>
    if best < (v : EReal) then bestModeGo rest (j + 1) (v : EReal) (j : ℤ)
    else bestModeGo rest (j + 1) best idx

/-- From `kl_divergence`, lines 160-170: the mode index assigned to one
sample (`best_mode[i]`). -/
noncomputable def best_mode {d : ℕ} (vars : List (MvnMode d)) (s : Fin d → ℝ) : ℤ :=
  bestModeGo (vars.map (fun v => mvnLogPdf v.1 v.2 s)) 0 ⊥ (-1)

/-- Log-density of mode `l` at a point, with `List.getD` bounds defaulting;
used to state properties of the mode assignment. -/
noncomputable def modeLogPdf {d : ℕ} (vars : List (MvnMode d)) (s : Fin d → ℝ)
    (l : ℕ) : ℝ :=
  mvnLogPdf (vars.getD l (mvnDefault d)).1 (vars.getD l (mvnDefault d)).2 s

/-- Columnwise empirical mean `np.mean(y, axis=0)` of a list of rows. -/
noncomputable def colMean {d : ℕ} (rows : List (Draw d)) : Draw d :=
  fun j => ((rows.map (fun r => r j)).sum) / rows.length

/-- Empirical covariance `np.cov(y.T)` of a list of rows (numpy default
`ddof=1`, so the normalisation is `N - 1`). -/
noncomputable def empCov {d : ℕ} (y : List (Draw d)) : Matrix (Fin d) (Fin d) ℝ :=
  Matrix.of fun j k =>
    ((y.map (fun r => (r j - colMean y j) * (r k - colMean y k))).sum) /
      ((y.length : ℝ) - 1)

/-- From `kl_divergence`, lines 178-196: the per-mode KL term
`0.5 * (trace(s1⁻¹ s0) + (m1-m0)ᵀ s1⁻¹ (m1-m0) - log det s0 + log det s1 - d)`
computed from the empirical moments `m0 = np.mean(y, axis=0)`,
`s0 = np.cov(y.T)` of the rows `y` and the mode's true moments `m1`, `s1`.
The source's scalar branch (taken when `d = 1`) is the `d = 1`
specialisation of this formula, with `1 × 1` determinants and traces. -/
noncomputable def klTerm {d : ℕ} (y : List (Draw d)) (m1 : Fin d → ℝ)
    (s1 : Matrix (Fin d) (Fin d) ℝ) : ℝ :=
  let m0 := colMean y
  let s0 := empCov y
  0.5 * (Matrix.trace (s1⁻¹ * s0) +
    Matrix.dotProduct (Matrix.vecMul (fun j => m1 j - m0 j) s1⁻¹)
      (fun j => m1 j - m0 j) -
    Real.log s0.det + Real.log s1.det - (d : ℝ))

/-- From `kl_divergence`, lines 172-197: one KL value per mode; the rows
assigned to mode `i` are `samples[best_mode == i]`, and when that set is
empty all samples are used instead. -/
noncomputable def kl_divergence {d : ℕ} (vars : List (MvnMode d))
    (samples : List (Draw d)) : List ℝ :=
  (List.range vars.length).map (fun (i : ℕ) =>
    let y0 := samples.filter (fun s => best_mode vars s == (i : ℤ))
    let y := if y0.isEmpty then samples else y0
    klTerm y (vars.getD i (mvnDefault d)).1 (vars.getD i (mvnDefault d)).2)

/-- Python `int(n)` on an exact rational: truncation toward zero. -/
def pyTrunc (q : ℚ) : ℤ := q.num.tdiv q.den

/-- From `MultimodalGaussianLogPDF.sample`, lines 102-105: the validation
`n_samples = int(n_samples); if n_samples < 1: raise ValueError(...)`.
The random draws themselves come from the external random-variate source
and are not modelled. -/
def sampleCheck (n_samples : ℚ) : Except String Unit :=
  if pyTrunc n_samples < 1 then
    Except.error "Number of samples must be greater than or equal to 1."
  else
    Except.ok ()

end MultimodalGaussianLogPDF

/-- The stored state of an `MCMCResults` instance: the (normalised) chains
and the eagerly computed summary statistics.  `warned` records whether the
single-chain advisory warning was logged.  `d` is `_num_params`. -/
structure MCMCResults (d : ℕ) where
  chains : List (List (Draw d))
  time : Option ℝ
  parameterNames : List String
  warned : Bool
  mean : Draw d
  std : Draw d
  quantiles : List (Draw d)
  rhat : Draw d
  ess : Draw d
  essPerSecond : Option (Draw d)
  numChains : ℕ
  summaryList : List (String × List ℝ)

/-- From `MCMCResults.__init__`, lines 34-48: a single chain is replaced by
`[chain[0:half], chain[half:]]` with `half = int(n / 2)`, and the warning is
logged; otherwise the chains are kept as given. -/
def normalizeChains {d : ℕ} (chains : List (List (Draw d))) :
    List (List (Draw d)) × Bool :=
  if chains.length = 1 then
    let c := chains.headD []
    ([c.take (c.length / 2), c.drop (c.length / 2)], true)
  else
    (chains, false)

/-- Columnwise population standard deviation `np.std(stacked, axis=0)`
(numpy default `ddof=0`). -/
noncomputable def colStd {d : ℕ} (rows : List (Draw d)) : Draw d :=
  fun j =>
    Real.sqrt (((rows.map (fun r =>
      (r j - MultimodalGaussianLogPDF.colMean rows j) ^ 2)).sum) / rows.length)

/-- The numpy `np.percentile(v, q)` with the default linear interpolation:
with the data sorted ascending and `h = q / 100 * (N - 1)`, the value is
`s[⌊h⌋] + (h - ⌊h⌋) * (s[⌈h⌉] - s[⌊h⌋])`. -/
noncomputable def npPercentile (q : ℝ) (v : List ℝ) : ℝ :=
  let s := v.insertionSort (· ≤ ·)
  let h := q / 100 * ((v.length : ℝ) - 1)
  s.getD ⌊h⌋₊ 0 + (h - (⌊h⌋₊ : ℝ)) * (s.getD ⌈h⌉₊ 0 - s.getD ⌊h⌋₊ 0)

/-- The five quantile levels of `make_summary`, line 109. -/
def quantileProbs : List ℝ := [2.5, 25, 50, 75, 97.5]

/-- From `make_summary`, lines 118-142: one summary row per parameter —
name, mean, std, the five quantiles, rhat, ess, and (when a run time was
supplied, signalled here by `eps = some _`) ess per second. -/
noncomputable def summaryRowsOf {d : ℕ} (names : List String) (m sd : Draw d)
    (qs : List (Draw d)) (rh e : Draw d) (eps : Option (Draw d)) :
    List (String × List ℝ) :=
  (List.finRange d).map (fun i =>
    (names.getD i.val "",
      [m i, sd i,
       (qs.getD 0 (fun _ => 0)) i, (qs.getD 1 (fun _ => 0)) i,
       (qs.getD 2 (fun _ => 0)) i, (qs.getD 3 (fun _ => 0)) i,
       (qs.getD 4 (fun _ => 0)) i, rh i, e i] ++
      (match eps with
       | some f => [f i]
       | none => [])))

/-- From `MCMCResults.make_summary`, lines 102-142: stack all stored chains,
compute mean, std, quantiles, ess (external estimator `essFn`), ess per
second (only when a run time is stored), the chain count, rhat (external
estimator `rhatFn` applied to the unstacked chains), and append one summary
row per parameter to the stored summary list.  The source builds the rows
from the freshly assigned attributes; here the same freshly computed values
are passed to `summaryRowsOf`. -/
noncomputable def MCMCResults.make_summary {d : ℕ}
    (essFn : List (Draw d) → Draw d)
    (rhatFn : List (List (Draw d)) → Draw d)
    (s : MCMCResults d) : MCMCResults d :=
  let stacked := s.chains.flatten
  let m := MultimodalGaussianLogPDF.colMean stacked
  let sd := colStd stacked
  let qs := quantileProbs.map
    (fun q => fun j : Fin d => npPercentile q (stacked.map (fun r => r j)))
  let e := essFn stacked
  let rh := rhatFn s.chains
  { s with
    mean := m
    std := sd
    quantiles := qs
    ess := e
    essPerSecond :=
      match s.time with
      | some t => some (fun j => e j / t)
      | none => s.essPerSecond
    numChains := s.chains.length
    rhat := rh
    summaryList := s.summaryList ++
      summaryRowsOf s.parameterNames m sd qs rh e
        (s.time.map (fun t => fun j => e j / t)) }

/-- Default parameter names `"param 1" .. "param d"` from
`MCMCResults.__init__`, lines 60-62. -/
def defaultNames (d : ℕ) : List String :=
  (List.range d).map (fun i => "param " ++ toString (i + 1))

/-- The state built by `MCMCResults.__init__` after its validations pass:
normalise the chains (with the single-chain warning), store the time and
the (supplied or default) parameter names, initialise the statistics
fields, and call `make_summary` once, eagerly. -/
noncomputable def MCMCResults.build {d : ℕ}
    (essFn : List (Draw d) → Draw d)
    (rhatFn : List (List (Draw d)) → Draw d)
    (chains : List (List (Draw d))) (time : Option ℝ)
    (parameterNames : Option (List String)) : MCMCResults d :=
  MCMCResults.make_summary essFn rhatFn
    { chains := (normalizeChains chains).1
      time := time
      parameterNames := parameterNames.getD (defaultNames d)
      warned := (normalizeChains chains).2
      mean := fun _ => 0
      std := fun _ => 0
      quantiles := []
      rhat := fun _ => 0
      ess := fun _ => 0
      essPerSecond := none
      numChains := 0
      summaryList := [] }

/-- From `MCMCResults.__init__`, lines 51-59: construction fails when a
supplied elapsed time is not strictly positive, or a supplied parameter
name list does not have one name per parameter; otherwise it returns the
eagerly summarised state. -/
noncomputable def MCMCResults.init {d : ℕ}
    (essFn : List (Draw d) → Draw d)
    (rhatFn : List (List (Draw d)) → Draw d)
    (chains : List (List (Draw d))) (time : Option ℝ)
    (parameterNames : Option (List String)) :
    Except String (MCMCResults d) :=
  if time.any (fun t => decide (t ≤ 0)) then
    Except.error "Elapsed time must be positive."
  else if parameterNames.any (fun ns => ns.length != d) then
    Except.error "Parameter names list must be same length as number of sampled parameters"
  else
    Except.ok (MCMCResults.build essFn rhatFn chains time parameterNames)

/-- Stated from the spec's words for claim C3: the elementwise arithmetic
mean of all draws pooled (stacked) across all chains, one value per
parameter column. -/
noncomputable def specPooledMean {d : ℕ} (chains : List (List (Draw d))) : Draw d :=
  fun j => ((chains.flatten.map (fun r => r j)).sum) / chains.flatten.length

/-- Stated from the spec's words for claim C3: the elementwise population
standard deviation of all draws pooled (stacked) across all chains. -/
noncomputable def specPooledStd {d : ℕ} (chains : List (List (Draw d))) : Draw d :=
  fun j =>
    Real.sqrt (((chains.flatten.map (fun r =>
      (r j - specPooledMean chains j) ^ 2)).sum) / chains.flatten.length)

/-! ### Helper lemmas -/

theorem aux_list_map_sum (l : List ℝ) (f : ℝ → ℝ) :
    (l.map f).sum = ∑ i ∈ Finset.range l.length, f (l.getD i 0) := by
  induction l with
  | nil => simp
  | cons a t ih =>
    simp [Finset.sum_range_succ', List.getD_cons_succ, List.getD_cons_zero, ih,
      add_comm]

theorem aux_map_id_of_mem {α : Type} {l : List α} {f : α → α}
    (h : ∀ a ∈ l, f a = a) : l.map f = l := by
  induction l with
  | nil => rfl
  | cons a t ih =>
    simp only [List.map_cons, h a (by simp)]
    rw [ih (fun b hb => h b (by simp [hb]))]

theorem aux_expit_logit {a : ℝ} (h0 : 0 < a) (h1 : a < 1) :
    expit (logit a) = a := by
  have hprod : 0 < a / (1 - a) := div_pos h0 (by linarith)
  unfold expit logit
  rw [Real.exp_neg, Real.exp_log hprod, inv_div]
  have ha : a ≠ 0 := ne_of_gt h0
  field_simp

/-! ### Claim C2 -/

/-- Claim C2: for every vector `x` in the search space,
`LogTransform.log_jacobian_det x` returns the sum over `i` of `exp (x i)` —
the literal implemented formula `sum(exp(x))`; in particular it differs
from `sum(x)` (at `x = [0]` it returns `1`, not `0`). -/
theorem claim_C2_log_jacobian_det :
    (∀ x : List ℝ, LogTransform.log_jacobian_det x =
      ∑ i ∈ Finset.range x.length, Real.exp (x.getD i 0)) ∧
    LogTransform.log_jacobian_det [(0 : ℝ)] ≠ ([(0 : ℝ)] : List ℝ).sum := by
  constructor
  · intro x
    simpa [LogTransform.log_jacobian_det] using aux_list_map_sum x Real.exp
  · simp [LogTransform.log_jacobian_det, Real.exp_zero]

/-! ### Claim C8 -/

/-- Claim C8: for every strictly positive vector `p`,
`LogTransform.to_model (LogTransform.to_search p) = p`, and for every
vector `q` with all components in the open interval `(0, 1)`,
`LogitTransform.to_model (LogitTransform.to_search q) = q`. -/
theorem claim_C8_round_trip (p q : List ℝ) (hp : ∀ a ∈ p, 0 < a)
    (hq : ∀ a ∈ q, 0 < a ∧ a < 1) :
    LogTransform.to_model (LogTransform.to_search p) = p ∧
    LogitTransform.to_model (LogitTransform.to_search q) = q := by
  constructor
  · unfold LogTransform.to_model LogTransform.to_search
    rw [List.map_map]
    exact aux_map_id_of_mem (fun a ha => Real.exp_log (hp a ha))
  · unfold LogitTransform.to_model LogitTransform.to_search
    rw [List.map_map]
    exact aux_map_id_of_mem
      (fun a ha => aux_expit_logit (hq a ha).1 (hq a ha).2)

/-- Witness for claim C8 at `p = [2]`, `q = [1/2]`. -/
theorem claim_C8_witness :
    (∀ a ∈ [(2 : ℝ)], 0 < a) ∧ (∀ a ∈ [(1 / 2 : ℝ)], 0 < a ∧ a < 1) ∧
    (LogTransform.to_model (LogTransform.to_search [(2 : ℝ)]) = [(2 : ℝ)] ∧
     LogitTransform.to_model (LogitTransform.to_search [(1 / 2 : ℝ)]) =
       [(1 / 2 : ℝ)]) := by
  have hp : ∀ a ∈ [(2 : ℝ)], 0 < a := by
    intro a ha
    simp only [List.mem_singleton] at ha
    subst ha
    norm_num
  have hq : ∀ a ∈ [(1 / 2 : ℝ)], 0 < a ∧ a < 1 := by
    intro a ha
    simp only [List.mem_singleton] at ha
    subst ha
    norm_num
  exact ⟨hp, hq, claim_C8_round_trip _ _ hp hq⟩

/-! ### Claim C10 -/

/-- Claim C10: `MultimodalGaussianLogPDF.sample(n)` raises a `ValueError`
exactly when the requested count, truncated to an integer as python's
`int()` does, is less than `1`; on exact rationals this is equivalent to
`n < 1`. -/
theorem claim_C10_sample_count (n : ℚ) :
    ((∃ e, MultimodalGaussianLogPDF.sampleCheck n = Except.error e) ↔
      MultimodalGaussianLogPDF.pyTrunc n < 1) ∧
    (MultimodalGaussianLogPDF.pyTrunc n < 1 ↔ n < 1) := by
  constructor
  · unfold MultimodalGaussianLogPDF.sampleCheck
    split_ifs with h
    · simp [h]
    · simp [h]
  · unfold MultimodalGaussianLogPDF.pyTrunc
    have hden : (0 : ℤ) < (n.den : ℤ) := by exact_mod_cast n.den_pos
    have hnum_den : n < 1 ↔ n.num < (n.den : ℤ) := by
      conv_lhs => rw [← Rat.num_div_den n]
      rw [div_lt_one (by exact_mod_cast n.den_pos)]
      constructor
      · intro h
        exact_mod_cast h
      · intro h
        exact_mod_cast h
    rw [hnum_den]
    rcases le_or_lt 0 n.num with hp | hn
    · rw [Int.tdiv_eq_ediv hp hden.le]
      rw [Int.ediv_lt_iff_lt_mul hden]
      simp
    · have h1 : 0 ≤ (-n.num).tdiv n.den := Int.tdiv_nonneg (by omega) hden.le
      have h2 : n.num.tdiv n.den = -((-n.num).tdiv n.den) := by
        rw [← Int.neg_tdiv, neg_neg]
      constructor
      · intro _
        omega
      · intro _
        omega

/-! ### Claim C7 -/

/-- The shape-validation stage (`__init__` lines 47-78) alone errors
exactly for the four shape conditions: empty mode list, inconsistent mode
dimensionality, covariance count mismatch, covariance shape mismatch. -/
theorem aux_validateArgs_error_iff (modes : List (List ℝ))
    (covariances : List (List (List ℝ))) :
    (∃ e, MultimodalGaussianLogPDF.validateArgs modes covariances =
      Except.error e) ↔
    (modes = [] ∨
     (∃ m ∈ modes, m.length ≠ MultimodalGaussianLogPDF.n_parameters modes) ∨
     covariances.length ≠ modes.length ∨
     (∃ c ∈ covariances,
        ¬(c.length = MultimodalGaussianLogPDF.n_parameters modes ∧
          ∀ row ∈ c,
            row.length = MultimodalGaussianLogPDF.n_parameters modes))) := by
  unfold MultimodalGaussianLogPDF.validateArgs
  split_ifs with h1 h2 h3 h4
  · have hm : modes = [] := List.length_eq_zero.mp (Nat.lt_one_iff.mp h1)
    simp [hm]
  · simp only [List.any_eq_true, bne_iff_ne] at h2
    obtain ⟨m, hm, hne⟩ := h2
    constructor
    · intro _
      exact Or.inr (Or.inl ⟨m, hm, hne⟩)
    · intro _
      exact ⟨_, rfl⟩
  · constructor
    · intro _
      refine Or.inr (Or.inr (Or.inl ?_))
      simpa using h3
    · intro _
      exact ⟨_, rfl⟩
  · simp only [List.any_eq_true, Bool.not_eq_true'] at h4
    obtain ⟨c, hc, hbad⟩ := h4
    rw [Bool.and_eq_false_iff] at hbad
    constructor
    · intro _
      refine Or.inr (Or.inr (Or.inr ⟨c, hc, ?_⟩))
      rintro ⟨hlen, hrows⟩
      rcases hbad with hb | hb
      · exact absurd hlen (by simpa using hb)
      · rw [List.all_eq_false] at hb
        obtain ⟨row, hrow, hne⟩ := hb
        exact absurd (hrows row hrow) (by simpa using hne)
    · intro _
      exact ⟨_, rfl⟩
  · constructor
    · rintro ⟨e, he⟩
      exact absurd he (by simp)
    · intro hcase
      exfalso
      rcases hcase with hc | hc | hc | hc
      · exact h1 (by simp [hc])
      · obtain ⟨m, hm, hne⟩ := hc
        exact h2 (by
          simp only [List.any_eq_true, bne_iff_ne]
          exact ⟨m, hm, hne⟩)
      · exact h3 (by simpa using hc)
      · obtain ⟨c, hc2, hbad⟩ := hc
        apply hbad
        simp only [List.any_eq_true, not_exists] at h4
        constructor
        · by_contra hne
          exact h4 c ⟨hc2, by simp [hne]⟩
        · intro row hrow
          by_contra hne
          refine h4 c ⟨hc2, ?_⟩
          simp only [Bool.not_eq_true']
          rw [Bool.and_eq_false_iff]
          right
          rw [List.all_eq_false]
          exact ⟨row, hrow, by simpa using hne⟩

/-- Counterexample to claim C7 as stated: `modes = [[0, 0]]` with the
single covariance `[[1, 0], [0, -1]]` passes every shape check (one mode
of dimension 2, one covariance of shape 2 × 2), yet construction raises:
the covariance is not positive semidefinite, so the scipy normal built at
line 82 rejects it.  Hence "raises iff the four shape conditions" and
"otherwise construction succeeds" are false of the code. -/
theorem claim_C7_counterexample :
    (∃ e, MultimodalGaussianLogPDF.initChecks [[(0 : ℝ), 0]]
        [[[(1 : ℝ), 0], [0, -1]]] = Except.error e) ∧
    ¬(([[(0 : ℝ), 0]] : List (List ℝ)) = [] ∨
      (∃ m ∈ ([[(0 : ℝ), 0]] : List (List ℝ)),
        m.length ≠ MultimodalGaussianLogPDF.n_parameters [[(0 : ℝ), 0]]) ∨
      ([[[(1 : ℝ), 0], [0, -1]]] : List (List (List ℝ))).length ≠
        ([[(0 : ℝ), 0]] : List (List ℝ)).length ∨
      (∃ c ∈ ([[[(1 : ℝ), 0], [0, -1]]] : List (List (List ℝ))),
        ¬(c.length = MultimodalGaussianLogPDF.n_parameters [[(0 : ℝ), 0]] ∧
          ∀ row ∈ c,
            row.length =
              MultimodalGaussianLogPDF.n_parameters [[(0 : ℝ), 0]]))) := by
  constructor
  · have hx : (fun i : Fin 2 => if i = 1 then (1 : ℝ) else 0) ≠ 0 := by
      intro h
      have h1 := congrFun h 1
      norm_num at h1
    have hnpd : ¬ (MultimodalGaussianLogPDF.covMatrix 2
        [[(1 : ℝ), 0], [0, -1]]).PosDef := by
      rintro ⟨_, hq⟩
      have hval := hq (fun i => if i = 1 then (1 : ℝ) else 0) hx
      have hform : Matrix.dotProduct
          (star (fun i : Fin 2 => if i = 1 then (1 : ℝ) else 0))
          ((MultimodalGaussianLogPDF.covMatrix 2
            [[(1 : ℝ), 0], [0, -1]]).mulVec
            (fun i : Fin 2 => if i = 1 then (1 : ℝ) else 0)) = -1 := by
        simp [Matrix.dotProduct, Matrix.mulVec, Fin.sum_univ_two,
          MultimodalGaussianLogPDF.covMatrix]
      rw [hform] at hval
      norm_num at hval
    have hva : MultimodalGaussianLogPDF.validateArgs [[(0 : ℝ), 0]]
        [[[(1 : ℝ), 0], [0, -1]]] = Except.ok () := rfl
    refine ⟨"the input matrix must be positive semidefinite", ?_⟩
    simp only [MultimodalGaussianLogPDF.initChecks, hva]
    rw [if_neg (fun hall => hnpd (hall [[(1 : ℝ), 0], [0, -1]] (by simp)))]
  · push_neg
    refine ⟨by simp, ?_, rfl, ?_⟩
    · intro m hm
      simp only [List.mem_singleton] at hm
      subst hm
      rfl
    · intro c hc
      simp only [List.mem_singleton] at hc
      subst hc
      refine ⟨rfl, ?_⟩
      intro row hrow
      simp only [List.mem_cons, List.not_mem_nil, or_false] at hrow
      rcases hrow with rfl | rfl
      · rfl
      · rfl

/-- Claim C7, amended: `MultimodalGaussianLogPDF` construction with
explicit arguments raises an invalid-argument error if and only if the
mode list is empty, the modes have inconsistent dimensionality, the
covariance count differs from the mode count, any covariance matrix's
shape differs from `(d, d)` — or, with all shape checks passing, some
covariance matrix is not positive definite (scipy's PSD validation and
the `np.linalg.inv` cache at lines 80-88 reject shape-valid covariances
that are not).  Passing the shape checks alone does not guarantee that
construction succeeds. -/
theorem claim_C7_ctor_validation_full (modes : List (List ℝ))
    (covariances : List (List (List ℝ))) :
    (∃ e, MultimodalGaussianLogPDF.initChecks modes covariances =
      Except.error e) ↔
    (modes = [] ∨
     (∃ m ∈ modes, m.length ≠ MultimodalGaussianLogPDF.n_parameters modes) ∨
     covariances.length ≠ modes.length ∨
     (∃ c ∈ covariances,
        ¬(c.length = MultimodalGaussianLogPDF.n_parameters modes ∧
          ∀ row ∈ c,
            row.length = MultimodalGaussianLogPDF.n_parameters modes)) ∨
     (∃ c ∈ covariances, ¬(MultimodalGaussianLogPDF.covMatrix
        (MultimodalGaussianLogPDF.n_parameters modes) c).PosDef)) := by
  cases hva : MultimodalGaussianLogPDF.validateArgs modes covariances with
  | error e =>
    have h4 := (aux_validateArgs_error_iff modes covariances).mp ⟨e, hva⟩
    constructor
    · intro _
      rcases h4 with hc | hc | hc | hc
      · exact Or.inl hc
      · exact Or.inr (Or.inl hc)
      · exact Or.inr (Or.inr (Or.inl hc))
      · exact Or.inr (Or.inr (Or.inr (Or.inl hc)))
    · intro _
      refine ⟨e, ?_⟩
      simp only [MultimodalGaussianLogPDF.initChecks, hva]
  | ok u =>
    have h4 : ¬(modes = [] ∨
        (∃ m ∈ modes,
          m.length ≠ MultimodalGaussianLogPDF.n_parameters modes) ∨
        covariances.length ≠ modes.length ∨
        (∃ c ∈ covariances,
          ¬(c.length = MultimodalGaussianLogPDF.n_parameters modes ∧
            ∀ row ∈ c,
              row.length = MultimodalGaussianLogPDF.n_parameters modes))) := by
      intro hc
      obtain ⟨e, he⟩ := (aux_validateArgs_error_iff modes covariances).mpr hc
      rw [hva] at he
      exact Except.noConfusion he
    simp only [MultimodalGaussianLogPDF.initChecks, hva]
    by_cases hpd : ∀ c ∈ covariances, (MultimodalGaussianLogPDF.covMatrix
        (MultimodalGaussianLogPDF.n_parameters modes) c).PosDef
    · rw [if_pos hpd]
      constructor
      · rintro ⟨e, he⟩
        exact Except.noConfusion he
      · intro hc
        exfalso
        rcases hc with hc | hc | hc | hc | hc
        · exact h4 (Or.inl hc)
        · exact h4 (Or.inr (Or.inl hc))
        · exact h4 (Or.inr (Or.inr (Or.inl hc)))
        · exact h4 (Or.inr (Or.inr (Or.inr hc)))
        · obtain ⟨c, hc2, hnp⟩ := hc
          exact hnp (hpd c hc2)
    · rw [if_neg hpd]
      constructor
      · intro _
        refine Or.inr (Or.inr (Or.inr (Or.inr ?_)))
        push_neg at hpd
        exact hpd
      · intro _
        exact ⟨_, rfl⟩

/-! ### Claim C4 -/

theorem aux_getLastD_eq_getD (l : List ℝ) :
    l.getLastD 0 = l.getD (l.length - 1) 0 := by
  rw [List.getLastD_eq_getLast?, List.getLast?_eq_getElem?,
    List.getD_eq_getElem?_getD]

/-- Claim C4: for every `x` of length equal to the configured
dimensionality `d ≥ 2`, the gradient returned by
`NealsFunnelLogPDF.evaluateS1` has the same length as `x`, its `i`-th
component (`i < d - 1`) equals `-x_i * exp(-ν)`, and its last component
equals `0.5 * Σ_i (exp(-ν) * x_i² - 1) - ν / 9`, where `ν` is the last
coordinate of `x`. -/
theorem claim_C4_funnel_gradient (x : List ℝ) (hx : 2 ≤ x.length) :
    (NealsFunnelLogPDF.evaluateS1_dL x).length = x.length ∧
    (∀ i, i < x.length - 1 →
      (NealsFunnelLogPDF.evaluateS1_dL x).getD i 0 =
        -(x.getD i 0) * Real.exp (-(x.getD (x.length - 1) 0))) ∧
    (NealsFunnelLogPDF.evaluateS1_dL x).getD (x.length - 1) 0 =
      0.5 * (∑ i ∈ Finset.range (x.length - 1),
        (Real.exp (-(x.getD (x.length - 1) 0)) * (x.getD i 0) ^ 2 - 1)) -
      (x.getD (x.length - 1) 0) / 9 := by
  have hnu : x.getLastD 0 = x.getD (x.length - 1) 0 := aux_getLastD_eq_getD x
  have hlen : x.dropLast.length = x.length - 1 := List.length_dropLast x
  refine ⟨?_, ?_, ?_⟩
  · simp only [NealsFunnelLogPDF.evaluateS1_dL, List.length_append,
      List.length_map, List.length_dropLast, List.length_singleton]
    omega
  · intro i hi
    have hi' : i < (x.dropLast.map
        (fun v => -v * Real.exp (-(x.getLastD 0)))).length := by
      simpa [hlen] using hi
    rw [NealsFunnelLogPDF.evaluateS1_dL]
    rw [List.getD_append _ _ _ _ hi']
    rw [List.getD_eq_getElem _ _ hi', List.getElem_map, List.getElem_dropLast]
    rw [← List.getD_eq_getElem x 0 (by omega), hnu]
  · rw [NealsFunnelLogPDF.evaluateS1_dL]
    rw [List.getD_append_right _ _ _ _ (by simp [hlen])]
    simp only [List.length_map, hlen, Nat.sub_self, List.getD_cons_zero]
    rw [hnu]
    congr 1
    rw [aux_list_map_sum]
    rw [Finset.mul_sum]
    rw [hlen]
    apply Finset.sum_congr rfl
    intro i hi
    rw [Finset.mem_range] at hi
    have hib : i < x.dropLast.length := by omega
    rw [List.getD_eq_getElem _ _ hib, List.getElem_dropLast,
      ← List.getD_eq_getElem x 0 (by omega)]

/-- Witness for claim C4 at `x = [1, 0]`. -/
theorem claim_C4_witness :
    2 ≤ ([(1 : ℝ), 0] : List ℝ).length ∧
    ((NealsFunnelLogPDF.evaluateS1_dL [(1 : ℝ), 0]).length = 2 ∧
     (∀ i, i < 1 →
       (NealsFunnelLogPDF.evaluateS1_dL [(1 : ℝ), 0]).getD i 0 =
         -(([(1 : ℝ), 0] : List ℝ).getD i 0) *
           Real.exp (-(([(1 : ℝ), 0] : List ℝ).getD 1 0))) ∧
     (NealsFunnelLogPDF.evaluateS1_dL [(1 : ℝ), 0]).getD 1 0 =
       0.5 * (∑ i ∈ Finset.range 1,
         (Real.exp (-(([(1 : ℝ), 0] : List ℝ).getD 1 0)) *
           (([(1 : ℝ), 0] : List ℝ).getD i 0) ^ 2 - 1)) -
       (([(1 : ℝ), 0] : List ℝ).getD 1 0) / 9) :=
  ⟨by norm_num, claim_C4_funnel_gradient [(1 : ℝ), 0] (by norm_num)⟩

/-! ### Claim C6 -/

/-- Claim C6: for every input point `x`, `MultimodalGaussianLogPDF`
evaluation returns the natural logarithm of the sum over modes of each
mode's multivariate-normal density at `x`; the `-inf` sentinel is returned
exactly when that sum is zero (in exact real arithmetic the sum of a
nonempty list of normal densities is strictly positive, so the sentinel
branch is never taken); the function is total, it never raises. -/
theorem claim_C6_eval (d : ℕ) (vars : List (MvnMode d)) (x : Fin d → ℝ)
    (hv : vars ≠ []) :
    0 < MultimodalGaussianLogPDF.sumDensity vars x ∧
    MultimodalGaussianLogPDF.call vars x =
      ((Real.log (MultimodalGaussianLogPDF.sumDensity vars x) : ℝ) : EReal) ∧
    (MultimodalGaussianLogPDF.call vars x = (⊥ : EReal) ↔
      MultimodalGaussianLogPDF.sumDensity vars x = 0) := by
  have hpos : 0 < MultimodalGaussianLogPDF.sumDensity vars x := by
    apply List.sum_pos
    · intro y hy
      simp only [List.mem_map] at hy
      obtain ⟨v, _, rfl⟩ := hy
      exact Real.exp_pos _
    · simpa [List.map_eq_nil_iff] using hv
  refine ⟨hpos, ?_, ?_⟩
  · rw [MultimodalGaussianLogPDF.call, if_neg hpos.ne']
  · rw [MultimodalGaussianLogPDF.call, if_neg hpos.ne']
    simp [EReal.coe_ne_bot, hpos.ne']

/-- Witness for claim C6 with one standard mode in one dimension, at the
origin. -/
theorem claim_C6_witness :
    ([mvnDefault 1] : List (MvnMode 1)) ≠ [] ∧
    (0 < MultimodalGaussianLogPDF.sumDensity [mvnDefault 1] (fun _ => 0) ∧
     MultimodalGaussianLogPDF.call [mvnDefault 1] (fun _ => 0) =
       ((Real.log (MultimodalGaussianLogPDF.sumDensity [mvnDefault 1]
         (fun _ => 0)) : ℝ) : EReal) ∧
     (MultimodalGaussianLogPDF.call [mvnDefault 1] (fun _ => 0) =
        (⊥ : EReal) ↔
       MultimodalGaussianLogPDF.sumDensity [mvnDefault 1] (fun _ => 0) = 0)) :=
  ⟨by simp, claim_C6_eval 1 [mvnDefault 1] (fun _ => 0) (by simp)⟩

/-! ### MCMCResults field lemmas -/

theorem aux_ms_chains {d : ℕ} (essFn : List (Draw d) → Draw d)
    (rhatFn : List (List (Draw d)) → Draw d) (s : MCMCResults d) :
    (MCMCResults.make_summary essFn rhatFn s).chains = s.chains := rfl

theorem aux_ms_warned {d : ℕ} (essFn : List (Draw d) → Draw d)
    (rhatFn : List (List (Draw d)) → Draw d) (s : MCMCResults d) :
    (MCMCResults.make_summary essFn rhatFn s).warned = s.warned := rfl

theorem aux_ms_mean {d : ℕ} (essFn : List (Draw d) → Draw d)
    (rhatFn : List (List (Draw d)) → Draw d) (s : MCMCResults d) :
    (MCMCResults.make_summary essFn rhatFn s).mean =
      MultimodalGaussianLogPDF.colMean s.chains.flatten := rfl

theorem aux_ms_std {d : ℕ} (essFn : List (Draw d) → Draw d)
    (rhatFn : List (List (Draw d)) → Draw d) (s : MCMCResults d) :
    (MCMCResults.make_summary essFn rhatFn s).std = colStd s.chains.flatten := rfl

theorem aux_normalize_flatten {d : ℕ} (chains : List (List (Draw d))) :
    ((normalizeChains chains).1).flatten = chains.flatten := by
  unfold normalizeChains
  split_ifs with h
  · obtain ⟨c, rfl⟩ := List.length_eq_one.mp h
    simp [List.take_append_drop]
  · rfl

/-! ### Claim C1 -/

/-- Counterexample to claim C1 as stated: for the single chain with three
rows `[0], [1], [2]` (one parameter), the stored halves have row counts
`[1, 2]`, not `[⌊3/2⌋, ⌊3/2⌋] = [1, 1]`: the second stored half keeps the
extra trailing row; nothing is dropped. -/
theorem claim_C1_counterexample :
    (MCMCResults.build (fun _ _ => 1) (fun _ _ => 1)
        [[(fun _ => 0 : Draw 1), (fun _ => 1 : Draw 1), (fun _ => 2 : Draw 1)]]
        none none).chains.map List.length = [1, 2] ∧
    ([1, 2] : List ℕ) ≠ [3 / 2, 3 / 2] := by
  constructor
  · rw [MCMCResults.build, aux_ms_chains]
    show ((normalizeChains _).1).map List.length = _
    simp [normalizeChains]
  · decide

/-- Claim C1, amended: for every single-chain input `[c]` of length `n`,
`MCMCResults` construction replaces the one chain by the two contiguous
pieces `c[0 : n/2]` and `c[n/2 : n]`; the first stored piece has
`⌊n/2⌋` rows and the second keeps the remaining `n - ⌊n/2⌋` rows (one more
when `n` is odd — no trailing row is dropped, and the two pieces together
still hold every row of `c`); the warning is emitted. -/
theorem claim_C1_amended {d : ℕ} (essFn : List (Draw d) → Draw d)
    (rhatFn : List (List (Draw d)) → Draw d) (c : List (Draw d))
    (time : Option ℝ) (names : Option (List String)) :
    (MCMCResults.build essFn rhatFn [c] time names).chains =
      [c.take (c.length / 2), c.drop (c.length / 2)] ∧
    (MCMCResults.build essFn rhatFn [c] time names).chains.map List.length =
      [c.length / 2, c.length - c.length / 2] ∧
    (MCMCResults.build essFn rhatFn [c] time names).chains.flatten = c ∧
    (MCMCResults.build essFn rhatFn [c] time names).warned = true := by
  have hch : (MCMCResults.build essFn rhatFn [c] time names).chains =
      [c.take (c.length / 2), c.drop (c.length / 2)] := by
    rw [MCMCResults.build, aux_ms_chains]
    show (normalizeChains _).1 = _
    simp [normalizeChains]
  refine ⟨hch, ?_, ?_, ?_⟩
  · rw [hch]
    simp only [List.map_cons, List.map_nil, List.length_take, List.length_drop]
    rw [Nat.min_eq_left (Nat.div_le_self _ _)]
  · rw [hch]
    simp [List.take_append_drop]
  · rw [MCMCResults.build, aux_ms_warned]
    show (normalizeChains _).2 = _
    simp [normalizeChains]

/-! ### Claim C3 -/

/-- Claim C3: for every chain set, the stored `mean` equals the elementwise
arithmetic mean of all draws pooled (stacked) across all input chains, and
the stored `std` equals the elementwise population standard deviation of
the same pooled set, one value per parameter column (this also holds
through the single-chain split, which keeps every row). -/
theorem claim_C3_pooled_moments {d : ℕ} (essFn : List (Draw d) → Draw d)
    (rhatFn : List (List (Draw d)) → Draw d) (chains : List (List (Draw d)))
    (time : Option ℝ) (names : Option (List String)) :
    (MCMCResults.build essFn rhatFn chains time names).mean =
      specPooledMean chains ∧
    (MCMCResults.build essFn rhatFn chains time names).std =
      specPooledStd chains := by
  constructor
  · rw [MCMCResults.build, aux_ms_mean]
    show MultimodalGaussianLogPDF.colMean ((normalizeChains chains).1).flatten = _
    rw [aux_normalize_flatten]
    rfl
  · rw [MCMCResults.build, aux_ms_std]
    show colStd ((normalizeChains chains).1).flatten = _
    rw [aux_normalize_flatten]
    rfl

/-! ### Claim C9 -/

/-- Counterexample to claim C9 as stated: `make_summary` is a public
operation of `MCMCResults`, and calling it again on a constructed instance
changes the stored summary list (it appends a second copy of the
per-parameter rows), so the `summary()` accessor no longer returns the
value computed at construction. -/
theorem claim_C9_counterexample :
    (MCMCResults.make_summary (fun _ _ => 1) (fun _ _ => 1)
        (MCMCResults.build (fun _ _ => 1) (fun _ _ => 1)
          [[(fun _ => 1 : Draw 1)], [(fun _ => 3 : Draw 1)]]
          none none)).summaryList ≠
      (MCMCResults.build (fun _ _ => 1) (fun _ _ => 1)
        [[(fun _ => 1 : Draw 1)], [(fun _ => 3 : Draw 1)]]
        none none).summaryList := by
  intro h
  have hlen := congrArg List.length h
  simp only [MCMCResults.build, MCMCResults.make_summary, summaryRowsOf,
    List.length_append, List.length_map, List.length_finRange,
    List.length_nil, List.nil_append] at hlen
  omega

/-- Claim C9, amended: after an `MCMCResults` instance is constructed, no
public operation changes the stored chains or any stored summary statistic
(mean, std, quantiles, rhat, ESS, ESS-per-second): the accessors are pure
projections of the stored state, and even the one mutating public
operation, `make_summary`, recomputes every statistic to its original
value.  However, `make_summary` appends a duplicate copy of the
per-parameter rows to the stored summary list, so the `summary()` (and
textual summary) accessor is not invariant: the claim holds for all public
operations except `make_summary`, whose effect on the summary list is
exactly this duplication. -/
theorem claim_C9_amended {d : ℕ} (essFn : List (Draw d) → Draw d)
    (rhatFn : List (List (Draw d)) → Draw d) (chains : List (List (Draw d)))
    (time : Option ℝ) (names : Option (List String)) :
    (MCMCResults.make_summary essFn rhatFn
        (MCMCResults.build essFn rhatFn chains time names)).chains =
      (MCMCResults.build essFn rhatFn chains time names).chains ∧
    (MCMCResults.make_summary essFn rhatFn
        (MCMCResults.build essFn rhatFn chains time names)).time =
      (MCMCResults.build essFn rhatFn chains time names).time ∧
    (MCMCResults.make_summary essFn rhatFn
        (MCMCResults.build essFn rhatFn chains time names)).parameterNames =
      (MCMCResults.build essFn rhatFn chains time names).parameterNames ∧
    (MCMCResults.make_summary essFn rhatFn
        (MCMCResults.build essFn rhatFn chains time names)).warned =
      (MCMCResults.build essFn rhatFn chains time names).warned ∧
    (MCMCResults.make_summary essFn rhatFn
        (MCMCResults.build essFn rhatFn chains time names)).mean =
      (MCMCResults.build essFn rhatFn chains time names).mean ∧
    (MCMCResults.make_summary essFn rhatFn
        (MCMCResults.build essFn rhatFn chains time names)).std =
      (MCMCResults.build essFn rhatFn chains time names).std ∧
    (MCMCResults.make_summary essFn rhatFn
        (MCMCResults.build essFn rhatFn chains time names)).quantiles =
      (MCMCResults.build essFn rhatFn chains time names).quantiles ∧
    (MCMCResults.make_summary essFn rhatFn
        (MCMCResults.build essFn rhatFn chains time names)).rhat =
      (MCMCResults.build essFn rhatFn chains time names).rhat ∧
    (MCMCResults.make_summary essFn rhatFn
        (MCMCResults.build essFn rhatFn chains time names)).ess =
      (MCMCResults.build essFn rhatFn chains time names).ess ∧
    (MCMCResults.make_summary essFn rhatFn
        (MCMCResults.build essFn rhatFn chains time names)).essPerSecond =
      (MCMCResults.build essFn rhatFn chains time names).essPerSecond ∧
    (MCMCResults.make_summary essFn rhatFn
        (MCMCResults.build essFn rhatFn chains time names)).numChains =
      (MCMCResults.build essFn rhatFn chains time names).numChains ∧
    (MCMCResults.make_summary essFn rhatFn
        (MCMCResults.build essFn rhatFn chains time names)).summaryList =
      (MCMCResults.build essFn rhatFn chains time names).summaryList ++
        (MCMCResults.build essFn rhatFn chains time names).summaryList := by
  cases time with
  | none =>
    exact ⟨rfl, rfl, rfl, rfl, rfl, rfl, rfl, rfl, rfl, rfl, rfl, rfl⟩
  | some t =>
    exact ⟨rfl, rfl, rfl, rfl, rfl, rfl, rfl, rfl, rfl, rfl, rfl, rfl⟩

/-! ### Claim C5 -/

theorem aux_bestModeGo_stay (vals : List ℝ) :
    ∀ (j : ℕ) (best : EReal) (idx : ℤ),
    (∀ l (hl : l < vals.length), ((vals[l] : ℝ) : EReal) ≤ best) →
    MultimodalGaussianLogPDF.bestModeGo vals j best idx = idx := by
  induction vals with
  | nil =>
    intro j best idx _
    rfl
  | cons v rest ih =>
    intro j best idx h
    rw [MultimodalGaussianLogPDF.bestModeGo]
    rw [if_neg (not_lt.mpr (by simpa using h 0 (by simp)))]
    exact ih (j + 1) best idx (fun l hl => by
      simpa using h (l + 1) (by simpa using Nat.succ_lt_succ hl))

theorem aux_bestModeGo_first_max (vals : List ℝ) :
    ∀ (k j : ℕ) (best : EReal) (idx : ℤ) (hk : k < vals.length),
    best < ((vals[k] : ℝ) : EReal) →
    (∀ l (hl : l < vals.length), vals[l] ≤ vals[k]) →
    (∀ l (hl : l < k), vals[l] < vals[k]) →
    MultimodalGaussianLogPDF.bestModeGo vals j best idx = (j : ℤ) + (k : ℤ) := by
  induction vals with
  | nil =>
    intro k j best idx hk
    exact absurd hk (by simp)
  | cons v rest ih =>
    intro k j best idx hk hbest hmax hfirst
    match k with
    | 0 =>
      rw [MultimodalGaussianLogPDF.bestModeGo]
      rw [if_pos (by simpa using hbest)]
      rw [aux_bestModeGo_stay rest (j + 1) _ _ (fun l hl => by
        have := hmax (l + 1) (by simpa using Nat.succ_lt_succ hl)
        simp only [List.getElem_cons_succ, List.getElem_cons_zero] at this
        exact_mod_cast EReal.coe_le_coe_iff.mpr this)]
      simp
    | k' + 1 =>
      have hk' : k' < rest.length := by simpa using Nat.lt_of_succ_lt_succ hk
      have hvk : v < rest[k'] := by
        have := hfirst 0 (by omega)
        simpa using this
      have hmax' : ∀ l (hl : l < rest.length), rest[l] ≤ rest[k'] := by
        intro l hl
        have := hmax (l + 1) (by simpa using Nat.succ_lt_succ hl)
        simpa using this
      have hfirst' : ∀ l (hl : l < k'), rest[l] < rest[k'] := by
        intro l hl
        have := hfirst (l + 1) (by omega)
        simpa using this
      rw [MultimodalGaussianLogPDF.bestModeGo]
      by_cases hb : best < (v : EReal)
      · rw [if_pos hb]
        rw [ih k' (j + 1) (v : EReal) (j : ℤ) hk'
          (by exact_mod_cast EReal.coe_lt_coe_iff.mpr hvk) hmax' hfirst']
        push_cast
        ring
      · rw [if_neg hb]
        rw [ih k' (j + 1) best idx hk'
          (by
            have : ((rest[k'] : ℝ) : EReal) = ((v :: rest)[k' + 1] : ℝ) := by
              simp
            rw [this]
            exact hbest)
          hmax' hfirst']
        push_cast
        ring

theorem aux_exists_first_argmax (vals : List ℝ) (hv : vals ≠ []) :
    ∃ k, ∃ hk : k < vals.length,
      (∀ l (hl : l < vals.length), vals[l] ≤ vals[k]) ∧
      (∀ l (hl : l < k), vals[l] < vals[k]) := by
  induction vals with
  | nil => exact absurd rfl hv
  | cons v rest ih =>
    rcases eq_or_ne rest [] with rfl | hr
    · refine ⟨0, by simp, ?_, ?_⟩
      · intro l hl
        have : l = 0 := by simpa using hl
        subst this
        exact le_refl _
      · intro l hl
        exact absurd hl (by omega)
    · obtain ⟨k, hk, hmax, hfirst⟩ := ih hr
      by_cases hvk : rest[k] ≤ v
      · refine ⟨0, by simp, ?_, ?_⟩
        · intro l hl
          match l with
          | 0 => exact le_refl _
          | l + 1 =>
            simp only [List.getElem_cons_succ, List.getElem_cons_zero]
            exact le_trans (hmax l (by simpa using Nat.lt_of_succ_lt_succ hl)) hvk
        · intro l hl
          exact absurd hl (by omega)
      · push_neg at hvk
        refine ⟨k + 1, by simpa using Nat.succ_lt_succ hk, ?_, ?_⟩
        · intro l hl
          match l with
          | 0 =>
            simpa using hvk.le
          | l + 1 =>
            simpa using hmax l (by simpa using Nat.lt_of_succ_lt_succ hl)
        · intro l hl
          match l with
          | 0 =>
            simpa using hvk
          | l + 1 =>
            simpa using hfirst l (by omega)

theorem aux_best_mode_spec (vals : List ℝ) (hv : vals ≠ []) :
    ∃ k, ∃ hk : k < vals.length,
      MultimodalGaussianLogPDF.bestModeGo vals 0 ⊥ (-1) = (k : ℤ) ∧
      (∀ l (hl : l < vals.length), vals[l] ≤ vals[k]) ∧
      (∀ l (hl : l < k), vals[l] < vals[k]) := by
  obtain ⟨k, hk, hmax, hfirst⟩ := aux_exists_first_argmax vals hv
  refine ⟨k, hk, ?_, hmax, hfirst⟩
  have := aux_bestModeGo_first_max vals k 0 ⊥ (-1) hk (EReal.bot_lt_coe _)
    hmax hfirst
  simpa using this

set_option maxHeartbeats 1000000 in
/-- Claim C5: in `MultimodalGaussianLogPDF.kl_divergence`, every sample row
is assigned to the mode with the strictly highest log-density at that point
(on ties the earliest mode index wins, because the comparison is a strict
greater-than); for any mode that receives zero assigned samples, that
mode's KL term is computed from the empirical mean and covariance of ALL
samples, and otherwise from the samples assigned to it. -/
theorem claim_C5_kl_assignment {d : ℕ} (vars : List (MvnMode d))
    (samples : List (Draw d)) (hv : vars ≠ []) :
    (∀ s ∈ samples, ∃ k, ∃ hk : k < vars.length,
      MultimodalGaussianLogPDF.best_mode vars s = (k : ℤ) ∧
      (∀ l, l < vars.length →
        MultimodalGaussianLogPDF.modeLogPdf vars s l ≤
          MultimodalGaussianLogPDF.modeLogPdf vars s k) ∧
      (∀ l, l < k →
        MultimodalGaussianLogPDF.modeLogPdf vars s l <
          MultimodalGaussianLogPDF.modeLogPdf vars s k)) ∧
    (∀ i, i < vars.length →
      samples.filter
        (fun s => MultimodalGaussianLogPDF.best_mode vars s == (i : ℤ)) = [] →
      (MultimodalGaussianLogPDF.kl_divergence vars samples).getD i 0 =
        MultimodalGaussianLogPDF.klTerm samples
          (vars.getD i (mvnDefault d)).1 (vars.getD i (mvnDefault d)).2) ∧
    (∀ i, i < vars.length →
      samples.filter
        (fun s => MultimodalGaussianLogPDF.best_mode vars s == (i : ℤ)) ≠ [] →
      (MultimodalGaussianLogPDF.kl_divergence vars samples).getD i 0 =
        MultimodalGaussianLogPDF.klTerm
          (samples.filter
            (fun s => MultimodalGaussianLogPDF.best_mode vars s == (i : ℤ)))
          (vars.getD i (mvnDefault d)).1 (vars.getD i (mvnDefault d)).2) := by
  refine ⟨?_, ?_, ?_⟩
  · intro s _
    have hvne : vars.map (fun v => mvnLogPdf v.1 v.2 s) ≠ [] := by
      simpa [List.map_eq_nil_iff] using hv
    obtain ⟨k, hk, hgo, hmax, hfirst⟩ :=
      aux_best_mode_spec (vars.map (fun v => mvnLogPdf v.1 v.2 s)) hvne
    rw [List.length_map] at hk
    refine ⟨k, hk, hgo, ?_, ?_⟩
    · intro l hl
      have hm := hmax l (by simpa using hl)
      rw [List.getElem_map, List.getElem_map] at hm
      rw [MultimodalGaussianLogPDF.modeLogPdf, MultimodalGaussianLogPDF.modeLogPdf,
        List.getD_eq_getElem _ _ hl, List.getD_eq_getElem _ _ hk]
      exact hm
    · intro l hl
      have hf := hfirst l (by simpa using hl)
      rw [List.getElem_map, List.getElem_map] at hf
      rw [MultimodalGaussianLogPDF.modeLogPdf, MultimodalGaussianLogPDF.modeLogPdf,
        List.getD_eq_getElem _ _ (by omega), List.getD_eq_getElem _ _ hk]
      exact hf
  · intro i hi hemp
    rw [MultimodalGaussianLogPDF.kl_divergence]
    rw [List.getD_eq_getElem _ _ (by simpa using hi)]
    simp only [List.getElem_map, List.getElem_range]
    rw [hemp]
    simp
  · intro i hi hne
    rw [MultimodalGaussianLogPDF.kl_divergence]
    rw [List.getD_eq_getElem _ _ (by simpa using hi)]
    simp only [List.getElem_map, List.getElem_range]
    simp only [List.isEmpty_iff, hne, if_neg, ite_false]

/-- Witness for claim C5 with one standard mode in one dimension and one
sample at the origin. -/
theorem claim_C5_witness :
    ([mvnDefault 1] : List (MvnMode 1)) ≠ [] ∧
    ((∀ s ∈ ([fun _ => 0] : List (Draw 1)), ∃ k : ℕ, ∃ hk : k < 1,
      MultimodalGaussianLogPDF.best_mode [mvnDefault 1] s = (k : ℤ) ∧
      (∀ l : ℕ, l < 1 →
        MultimodalGaussianLogPDF.modeLogPdf [mvnDefault 1] s l ≤
          MultimodalGaussianLogPDF.modeLogPdf [mvnDefault 1] s k) ∧
      (∀ l : ℕ, l < k →
        MultimodalGaussianLogPDF.modeLogPdf [mvnDefault 1] s l <
          MultimodalGaussianLogPDF.modeLogPdf [mvnDefault 1] s k)) ∧
    (∀ i : ℕ, i < 1 →
      ([fun _ => 0] : List (Draw 1)).filter
        (fun s => MultimodalGaussianLogPDF.best_mode [mvnDefault 1] s ==
          (i : ℤ)) = [] →
      (MultimodalGaussianLogPDF.kl_divergence [mvnDefault 1]
          ([fun _ => 0] : List (Draw 1))).getD i 0 =
        MultimodalGaussianLogPDF.klTerm ([fun _ => 0] : List (Draw 1))
          (([mvnDefault 1] : List (MvnMode 1)).getD i (mvnDefault 1)).1
          (([mvnDefault 1] : List (MvnMode 1)).getD i (mvnDefault 1)).2) ∧
    (∀ i : ℕ, i < 1 →
      ([fun _ => 0] : List (Draw 1)).filter
        (fun s => MultimodalGaussianLogPDF.best_mode [mvnDefault 1] s ==
          (i : ℤ)) ≠ [] →
      (MultimodalGaussianLogPDF.kl_divergence [mvnDefault 1]
          ([fun _ => 0] : List (Draw 1))).getD i 0 =
        MultimodalGaussianLogPDF.klTerm
          (([fun _ => 0] : List (Draw 1)).filter
            (fun s => MultimodalGaussianLogPDF.best_mode [mvnDefault 1] s ==
              (i : ℤ)))
          (([mvnDefault 1] : List (MvnMode 1)).getD i (mvnDefault 1)).1
          (([mvnDefault 1] : List (MvnMode 1)).getD i (mvnDefault 1)).2)) :=
  ⟨by simp,
    claim_C5_kl_assignment [mvnDefault 1] ([fun _ => 0] : List (Draw 1))
      (by simp)⟩
